import Mathlib

/-!
# Verification of the nuoi-dev data-access layer

A shallow embedding, in Lean 4, of the hybrid database module of the
nuoi-dev repository (Vercel KV in production, JSON files in local
development), together with proofs about its record store, its collection
repositories and its derived-state helpers.

Modelling conventions:
* JSON documents are values of the inductive type `Json`; serialization is
  abstracted away, because `JSON.parse (JSON.stringify v)` is the identity
  on every value representable by `Json` (no `undefined`, `NaN`, or
  functions).
* The process-wide `isVercel` flag, the local files and the in-memory
  `memoryStore` cache form an explicit `StoreState` threaded through the
  store operations.  The fire-and-forget remote KV write issued by
  `writeData` in hosted mode is not part of the state: the synchronous
  `readData` path under scrutiny never consults the remote store, only the
  in-memory cache.
* Repository operations read a collection document, operate on the list of
  entities and write the document back; they are modelled as functions
  from a typed database state `DB` to a result paired with the new state.
* Clock reads (`new Date()`) become explicit `now` / `today` parameters.
* JavaScript string `startsWith` is modelled on the character lists of the
  strings.
-/

set_option autoImplicit false

namespace NuoiDev

/-- JSON-like values: the documents stored by the record store. -/
inductive Json where
  | null
  | bool (b : Bool)
  | num (n : Int)
  | str (s : String)
  | arr (elems : List Json)
  | obj (fields : List (String × Json))

/-- JavaScript truthiness of a `Json` value: `null`, `false`, `0` and the
empty string are falsy; every array and object is truthy. -/
def Json.truthy : Json → Bool
  | .null => false
  | .bool b => b
  | .num n => n != 0
  | .str s => s != ""
  | .arr _ => true
  | .obj _ => true

/-- The JavaScript expression `v || d` applied to a lookup result: an absent
value and a falsy value both fall back to the default. -/
def jsOr (v : Option Json) (d : Json) : Json :=
  match v with
  | some x => if x.truthy then x else d
  | none => d

/-- Insert or overwrite the binding of key `k` in an association list,
keeping the position of an existing binding (map/file-system update). -/
def setKey (k : String) (v : Json) : List (String × Json) → List (String × Json)
  | [] => [(k, v)]
  | (k2, v2) :: rest => if k2 == k then (k, v) :: rest else (k2, v2) :: setKey k v rest

/-- State of the record store: the backend-selection flag `isVercel`, the
parsed contents of the local JSON files (one per collection name) and the
in-memory `memoryStore` cache used in hosted mode. -/
structure StoreState where
  isVercel : Bool
  files : List (String × Json)
  memoryStore : List (String × Json)

/-- The synchronous `readData` of the source.  On Vercel it reads only the
in-memory cache, with the JavaScript `|| defaultValue` fallback; locally it
reads the collection file, first creating it with the serialized default
when it does not exist.  (In local mode the `fs` module is always loaded,
so the final in-memory fallback branch of the source is unreachable.) -/
def readData (name : String) (defaultValue : Json) (s : StoreState) : Json × StoreState :=
  if s.isVercel then
    (jsOr (s.memoryStore.lookup name) defaultValue, s)
  else
    match s.files.lookup name with
    | none => (defaultValue, { s with files := setKey name defaultValue s.files })
    | some doc => (doc, s)

/-- The synchronous `writeData` of the source.  On Vercel it updates the
in-memory cache (and fires a background remote write that the synchronous
read path never observes); locally it overwrites the collection file. -/
def writeData (name : String) (data : Json) (s : StoreState) : StoreState :=
  if s.isVercel then
    { s with memoryStore := setKey name data s.memoryStore }
  else
    { s with files := setKey name data s.files }

theorem lookup_setKey_self (k : String) (v : Json) (m : List (String × Json)) :
    (setKey k v m).lookup k = some v := by
  induction m with
  | nil => simp [setKey, List.lookup]
  | cons p rest ih =>
    obtain ⟨k2, v2⟩ := p
    by_cases h : k2 == k
    · simp [setKey, h, List.lookup]
    · simp only [setKey, h, if_false, List.lookup]
      have h2 : (k == k2) = false := by
        cases h3 : k == k2
        · rfl
        · exact absurd (by simp_all [BEq.comm]) h
      simp [h2, ih]

/-- The rank tiers of a profile. -/
inductive Rank where
  | bronze
  | silver
  | gold
  | platinum
  | diamond
  | master
  | legend
  deriving DecidableEq, Repr, Inhabited

/-- `calculateRank` of the source: the fixed threshold table from vote
count to tier, evaluated top-down. -/
def calculateRank (votes : Int) : Rank :=
  if votes ≥ 1000 then .legend
  else if votes ≥ 500 then .master
  else if votes ≥ 200 then .diamond
  else if votes ≥ 100 then .platinum
  else if votes ≥ 50 then .gold
  else if votes ≥ 20 then .silver
  else .bronze

/-- An empty hosted-mode store (Vercel, cold in-memory cache). -/
def hostedStore : StoreState :=
  { isVercel := true, files := [], memoryStore := [] }

/-- An empty local-mode store (no collection file exists yet). -/
def localStore : StoreState :=
  { isVercel := false, files := [], memoryStore := [] }

/-- C2: `calculateRank` maps every integer vote count to its tier exactly as
the threshold table states: at least 1000 gives legend, 500 to 999 master,
200 to 499 diamond, 100 to 199 platinum, 50 to 99 gold, 20 to 49 silver and
everything below 20 bronze; in particular 0 and 19 give bronze, 20 silver,
999 master and 1000 legend. -/
theorem calculateRank_spec (v : Int) :
    (1000 ≤ v → calculateRank v = .legend)
    ∧ (500 ≤ v ∧ v ≤ 999 → calculateRank v = .master)
    ∧ (200 ≤ v ∧ v ≤ 499 → calculateRank v = .diamond)
    ∧ (100 ≤ v ∧ v ≤ 199 → calculateRank v = .platinum)
    ∧ (50 ≤ v ∧ v ≤ 99 → calculateRank v = .gold)
    ∧ (20 ≤ v ∧ v ≤ 49 → calculateRank v = .silver)
    ∧ (v < 20 → calculateRank v = .bronze)
    ∧ calculateRank 0 = .bronze ∧ calculateRank 19 = .bronze
    ∧ calculateRank 20 = .silver ∧ calculateRank 999 = .master
    ∧ calculateRank 1000 = .legend := by
  refine ⟨fun h => ?_, fun h => ?_, fun h => ?_, fun h => ?_, fun h => ?_, fun h => ?_,
    fun h => ?_, by decide, by decide, by decide, by decide, by decide⟩ <;>
    · simp only [calculateRank]
      split_ifs <;> first | rfl | omega

/-- Witness for C2 at concrete vote counts. -/
theorem calculateRank_spec_witness :
    calculateRank 1500 = Rank.legend
    ∧ calculateRank 600 = Rank.master
    ∧ calculateRank 250 = Rank.diamond
    ∧ calculateRank 150 = Rank.platinum
    ∧ calculateRank 60 = Rank.gold
    ∧ calculateRank 30 = Rank.silver
    ∧ calculateRank 7 = Rank.bronze :=
  ⟨(calculateRank_spec 1500).1 (by decide),
   (calculateRank_spec 600).2.1 ⟨by decide, by decide⟩,
   (calculateRank_spec 250).2.2.1 ⟨by decide, by decide⟩,
   (calculateRank_spec 150).2.2.2.1 ⟨by decide, by decide⟩,
   (calculateRank_spec 60).2.2.2.2.1 ⟨by decide, by decide⟩,
   (calculateRank_spec 30).2.2.2.2.2.1 ⟨by decide, by decide⟩,
   (calculateRank_spec 7).2.2.2.2.2.2.1 (by decide)⟩

/-- C3 counterexample: in hosted mode, writing the (falsy) document `false`
and immediately reading the collection back with default `1` yields `1`,
not the written document, because the synchronous hosted read applies the
JavaScript `|| defaultValue` fallback to the cached value. -/
theorem readData_writeData_roundtrip_cex :
    (readData "posts" (Json.num 1) (writeData "posts" (Json.bool false) hostedStore)).1
      = Json.num 1
    ∧ Json.num 1 ≠ Json.bool false :=
  ⟨rfl, fun h => nomatch h⟩

/-- C3 (amended): `writeData name D` immediately followed by
`readData name _` in the same process returns `D` in local-file mode for
every document, and in hosted mode for every truthy document (in
particular for every object document, so for every collection document);
a falsy document read back in hosted mode yields the supplied default
instead. -/
theorem readData_writeData_roundtrip (name : String) (d defaultValue : Json)
    (s : StoreState) (h : s.isVercel = false ∨ d.truthy = true) :
    (readData name defaultValue (writeData name d s)).1 = d := by
  cases hv : s.isVercel with
  | false =>
    simp [readData, writeData, hv, lookup_setKey_self]
  | true =>
    rcases h with h | h
    · rw [hv] at h
      cases h
    · simp [readData, writeData, hv, lookup_setKey_self, jsOr, h]

/-- Witness for C3 (amended): a concrete hosted-mode round trip of an
object document. -/
theorem readData_writeData_roundtrip_witness :
    (Json.obj []).truthy = true
    ∧ (readData "profiles" Json.null (writeData "profiles" (Json.obj []) hostedStore)).1
        = Json.obj [] :=
  ⟨rfl,
   readData_writeData_roundtrip "profiles" (Json.obj []) Json.null hostedStore (Or.inr rfl)⟩

/-- C4: in local mode, reading a never-before-seen collection returns the
supplied default and creates the collection file with exactly that
document; afterwards every read of the collection (whatever default it
supplies) returns that document and leaves the store unchanged, until a
write replaces the file, after which reads return the newly written
document.  A hosted-mode read of a never-before-seen collection also
returns the supplied default. -/
theorem readData_fresh_spec (name : String) (d : Json) (s : StoreState)
    (hmode : s.isVercel = false) (hfresh : s.files.lookup name = none) :
    (readData name d s).1 = d
    ∧ ((readData name d s).2).files.lookup name = some d
    ∧ (∀ d2, (readData name d2 (readData name d s).2).1 = d
        ∧ (readData name d2 (readData name d s).2).2 = (readData name d s).2)
    ∧ (∀ dW d2, (readData name d2 (writeData name dW (readData name d s).2)).1 = dW)
    ∧ (∀ s2 : StoreState, s2.isVercel = true → s2.memoryStore.lookup name = none →
        (readData name d s2).1 = d) := by
  refine ⟨?_, ?_, ?_, ?_, ?_⟩
  · simp [readData, hmode, hfresh]
  · simp [readData, hmode, hfresh, lookup_setKey_self]
  · intro d2
    constructor <;> simp [readData, hmode, hfresh, lookup_setKey_self]
  · intro dW d2
    simp [readData, writeData, hmode, hfresh, lookup_setKey_self]
  · intro s2 h1 h2
    simp [readData, h1, h2, jsOr]

/-- Witness for C4: a concrete fresh local-mode read of the votes
collection. -/
theorem readData_fresh_spec_witness :
    localStore.isVercel = false
    ∧ localStore.files.lookup "votes" = none
    ∧ (readData "votes" (Json.obj []) localStore).1 = Json.obj [] :=
  ⟨rfl, rfl, (readData_fresh_spec "votes" (Json.obj []) localStore rfl rfl).1⟩

/-- Modelled from the spec: the entity types live in `@/types/profile`,
which is not among the provided sources.  Per the spec a Profile has an id,
an integer vote count, a rank tier derived from the votes, an `updatedAt`
timestamp and arbitrary other attributes, represented here by the `name`
field.  Timestamps are ISO strings. -/
structure Profile where
  id : String
  name : String
  votes : Int
  rank : Rank
  updatedAt : String
  deriving DecidableEq, Repr

/-- A partial profile update (`Partial<Profile>`): each field is either
absent or supplies a new value. -/
structure ProfileUpdate where
  id : Option String := none
  name : Option String := none
  votes : Option Int := none
  rank : Option Rank := none
  updatedAt : Option String := none
  deriving DecidableEq, Repr

/-- The spread `{ ...existing, ...updates, updatedAt: now }` of
`updateProfile`: fields named in the update overwrite the existing ones,
the others are kept, and `updatedAt` is stamped with the current time even
when the update supplies one. -/
def mergeProfile (p : Profile) (u : ProfileUpdate) (now : String) : Profile where
  id := u.id.getD p.id
  name := u.name.getD p.name
  votes := u.votes.getD p.votes
  rank := u.rank.getD p.rank
  updatedAt := now

/-- Modelled from the spec: a Post has an id, a `createdAt` timestamp, an
`isPinned` boolean and a like count, plus other content attributes
represented by `title`.  `createdAt` is modelled directly as the numeric
timestamp `new Date(createdAt).getTime()`, since the sort comparator only
ever uses that number and ISO-8601 parsing is monotone.  `likes` is
optional because `likePost` treats an absent value as 0. -/
structure Post where
  id : String
  title : String
  createdAt : Int
  isPinned : Bool
  likes : Option Int
  deriving DecidableEq, Repr

/-- Modelled from the spec: a chat message has an id, content and a
`createdAt` timestamp (numeric, as for `Post`). -/
structure ChatMessage where
  id : String
  text : String
  createdAt : Int
  deriving DecidableEq, Repr

/-- Modelled from the spec: a vote has a voter id, a profile id and a
`createdAt` ISO-8601 timestamp string whose first ten characters are the
UTC calendar date. -/
structure Vote where
  voterId : String
  profileId : String
  createdAt : String
  deriving DecidableEq, Repr

/-- The typed contents of the collection documents operated on by the
repository functions under scrutiny (the users collection is untouched by
every claim and is omitted).  Each repository operation of the source
reads one collection document, operates on the entity list and writes the
document back; with the record-store round trip established above, this is
modelled as explicit state passing on `DB`. -/
structure DB where
  profiles : List Profile
  posts : List Post
  messages : List ChatMessage
  votes : List Vote
  deriving DecidableEq, Repr

/-- `findIndex` followed by an in-place assignment of `f` applied to the
found element, as done by `updateProfile`, `updatePost` and `likePost`:
returns the new value at the found position (or none) together with the
updated list. -/
def updateFirst {α : Type} (p : α → Bool) (f : α → α) : List α → Option α × List α
  | [] => (none, [])
  | x :: xs =>
    if p x then (some (f x), f x :: xs)
    else
      let r := updateFirst p f xs
      (r.1, x :: r.2)

/-- `getAllProfiles` of the source. -/
def getAllProfiles (db : DB) : List Profile :=
  db.profiles

/-- `getProfileById` of the source: first profile with matching id, else
none. -/
def getProfileById (id : String) (db : DB) : Option Profile :=
  (getAllProfiles db).find? (fun p => p.id == id)

/-- `createProfile` of the source: append and persist. -/
def createProfile (profile : Profile) (db : DB) : Profile × DB :=
  (profile, { db with profiles := db.profiles ++ [profile] })

/-- `updateProfile` of the source: look up by id; absent gives none with
nothing written; otherwise the merged entity replaces the found one and is
returned. -/
def updateProfile (id : String) (updates : ProfileUpdate) (now : String) (db : DB) :
    Option Profile × DB :=
  let r := updateFirst (fun p => p.id == id) (fun p => mergeProfile p updates now) db.profiles
  (r.1, { db with profiles := r.2 })

/-- `deleteProfile` of the source: filter out the id; report whether the
length changed; persist the filtered list only in that case. -/
def deleteProfile (id : String) (db : DB) : Bool × DB :=
  let filtered := db.profiles.filter (fun p => !(p.id == id))
  if filtered.length == db.profiles.length then (false, db)
  else (true, { db with profiles := filtered })

/-- The sort comparator of `getAllPosts`, turned into the boolean relation
"the comparator does not require `a` after `b`" (comparator value at most
zero): a pinned post precedes an unpinned one, and otherwise the larger
`createdAt` precedes. -/
def postLe (a b : Post) : Bool :=
  if a.isPinned && !b.isPinned then true
  else if !a.isPinned && b.isPinned then false
  else decide (b.createdAt ≤ a.createdAt)

/-- `getAllPosts` of the source sorts with a stable JavaScript
`Array.prototype.sort` (stable per ECMA-262).  A stable sort for the total
preorder induced by the comparator produces a unique result, so it is
modelled by stable insertion sort over `postLe`. -/
def getAllPosts (db : DB) : List Post :=
  db.posts.insertionSort (fun a b => postLe a b = true)

/-- `getPostById` of the source: searches the sorted list. -/
def getPostById (id : String) (db : DB) : Option Post :=
  (getAllPosts db).find? (fun p => p.id == id)

/-- `createPost` of the source: append and persist. -/
def createPost (post : Post) (db : DB) : Post × DB :=
  (post, { db with posts := db.posts ++ [post] })

/-- `deletePost` of the source: same shape as `deleteProfile`. -/
def deletePost (id : String) (db : DB) : Bool × DB :=
  let filtered := db.posts.filter (fun p => !(p.id == id))
  if filtered.length == db.posts.length then (false, db)
  else (true, { db with posts := filtered })

/-- `likePost` of the source: find by id; absent gives none with nothing
written; otherwise `likes` becomes `(likes || 0) + 1` and the post is
persisted and returned. -/
def likePost (id : String) (db : DB) : Option Post × DB :=
  let r := updateFirst (fun p => p.id == id)
    (fun p => { p with likes := some (p.likes.getD 0 + 1) }) db.posts
  (r.1, { db with posts := r.2 })

/-- The last `n` elements of a list (JavaScript `slice(-n)` for nonempty
results): drop all but the final `n`. -/
def lastN {α : Type} (n : Nat) (l : List α) : List α :=
  l.drop (l.length - n)

/-- `addChatMessage` of the source: push the message, then keep only the
last 500 messages when the list has grown beyond 500, and persist. -/
def addChatMessage (message : ChatMessage) (db : DB) : ChatMessage × DB :=
  let ms := db.messages ++ [message]
  let ms2 := if ms.length > 500 then lastN 500 ms else ms
  (message, { db with messages := ms2 })

/-- `getVotes` of the source. -/
def getVotes (db : DB) : List Vote :=
  db.votes

/-- `addVote` of the source: append and persist. -/
def addVote (vote : Vote) (db : DB) : Vote × DB :=
  (vote, { db with votes := db.votes ++ [vote] })

/-- `getVotesForProfile` of the source: the number of vote records whose
profile id matches. -/
def getVotesForProfile (profileId : String) (db : DB) : Nat :=
  ((getVotes db).filter (fun v => v.profileId == profileId)).length

/-- JavaScript string `startsWith`, on the character lists of the
strings. -/
def strStartsWith (s pre : String) : Bool :=
  pre.data.isPrefixOf s.data

/-- `hasVotedToday` of the source: some vote matches the voter, the
profile, and has a `createdAt` starting with the current UTC date string
(the clock read `new Date().toISOString().split(sep)[0]` becomes the
explicit `today` parameter). -/
def hasVotedToday (visitorId profileId today : String) (db : DB) : Bool :=
  (getVotes db).any (fun v =>
    v.voterId == visitorId && v.profileId == profileId && strStartsWith v.createdAt today)

/-- `getTodayVoteCount` of the source. -/
def getTodayVoteCount (visitorId today : String) (db : DB) : Nat :=
  ((getVotes db).filter (fun v =>
    v.voterId == visitorId && strStartsWith v.createdAt today)).length

/-- `updateProfileVotesAndRank` of the source: recount the votes for the
profile, recompute the rank, and write both through `updateProfile`. -/
def updateProfileVotesAndRank (profileId : String) (now : String) (db : DB) :
    Option Profile × DB :=
  let votes := getVotesForProfile profileId db
  let rank := calculateRank votes
  updateProfile profileId { votes := some (votes : Int), rank := some rank } now db

theorem updateFirst_of_forall_not {α : Type} (p : α → Bool) (f : α → α) (xs : List α)
    (h : ∀ x ∈ xs, p x = false) : updateFirst p f xs = (none, xs) := by
  induction xs with
  | nil => rfl
  | cons x xs ih =>
    have hx : p x = false := h x (List.mem_cons_self x xs)
    simp [updateFirst, hx, ih (fun y hy => h y (List.mem_cons_of_mem x hy))]

theorem updateFirst_append {α : Type} (p : α → Bool) (f : α → α) (l1 : List α) (x : α)
    (l2 : List α) (h1 : ∀ y ∈ l1, p y = false) (hx : p x = true) :
    updateFirst p f (l1 ++ x :: l2) = (some (f x), l1 ++ f x :: l2) := by
  induction l1 with
  | nil => simp [updateFirst, hx]
  | cons y ys ih =>
    have hy : p y = false := h1 y (List.mem_cons_self y ys)
    simp [updateFirst, hy, ih (fun z hz => h1 z (List.mem_cons_of_mem y hz))]

theorem updateFirst_cases {α : Type} (p : α → Bool) (f : α → α) (xs : List α) :
    (updateFirst p f xs = (none, xs) ∧ ∀ x ∈ xs, p x = false)
    ∨ ∃ l1 x l2, xs = l1 ++ x :: l2 ∧ (∀ y ∈ l1, p y = false) ∧ p x = true
        ∧ updateFirst p f xs = (some (f x), l1 ++ f x :: l2) := by
  induction xs with
  | nil => exact Or.inl ⟨rfl, by simp⟩
  | cons x xs ih =>
    by_cases hx : p x = true
    · exact Or.inr ⟨[], x, xs, by simp, by simp, hx, by simp [updateFirst, hx]⟩
    · have hx2 : p x = false := by simpa using hx
      rcases ih with ⟨h1, h2⟩ | ⟨l1, z, l2, he, hl1, hz, hu⟩
      · refine Or.inl ⟨by simp [updateFirst, hx2, h1], ?_⟩
        intro y hy
        rcases List.mem_cons.mp hy with rfl | hy2
        · exact hx2
        · exact h2 y hy2
      · refine Or.inr ⟨x :: l1, z, l2, by simp [he], ?_, hz, by simp [updateFirst, hx2, hu]⟩
        intro y hy
        rcases List.mem_cons.mp hy with rfl | hy2
        · exact hx2
        · exact hl1 y hy2

theorem find?_middle {α : Type} (p : α → Bool) (l1 : List α) (x : α) (l2 : List α)
    (h1 : ∀ y ∈ l1, p y = false) (hx : p x = true) :
    (l1 ++ x :: l2).find? p = some x := by
  induction l1 with
  | nil => simp [List.find?_cons, hx]
  | cons y ys ih =>
    have hy : p y = false := h1 y (List.mem_cons_self y ys)
    simp only [List.cons_append, List.find?_cons, hy]
    exact ih (fun z hz => h1 z (List.mem_cons_of_mem y hz))

/-- C1: when a profile with the given id exists,
`updateProfileVotesAndRank` returns an updated profile whose `votes` field
is the number of vote records for that id and whose `rank` is
`calculateRank` of that count, and the stored profile found under the id
afterwards is exactly that profile (the votes collection is untouched, so
the stored counts still agree); when no profile has the id it returns none
and the state is unchanged. -/
theorem updateProfileVotesAndRank_spec (id now : String) (db : DB) :
    ((∃ q, getProfileById id db = some q) →
      ∃ r db2, updateProfileVotesAndRank id now db = (some r, db2)
        ∧ r.votes = (getVotesForProfile id db : Int)
        ∧ r.rank = calculateRank (getVotesForProfile id db)
        ∧ getProfileById id db2 = some r
        ∧ db2.votes = db.votes
        ∧ r.votes = (getVotesForProfile id db2 : Int)
        ∧ r.rank = calculateRank (getVotesForProfile id db2))
    ∧ (getProfileById id db = none →
        updateProfileVotesAndRank id now db = (none, db)) := by
  constructor
  · rintro ⟨q, hq⟩
    rcases updateFirst_cases (fun p => p.id == id)
        (fun p => mergeProfile p
          { votes := some ((getVotesForProfile id db : Nat) : Int),
            rank := some (calculateRank (getVotesForProfile id db)) } now) db.profiles with
      ⟨_, hall⟩ | ⟨l1, z, l2, he, hl1, hz, hu⟩
    · exfalso
      have : db.profiles.find? (fun p => p.id == id) = none :=
        List.find?_eq_none.mpr (fun x hx => by simp [hall x hx])
      rw [getProfileById, getAllProfiles] at hq
      rw [this] at hq
      cases hq
    · have hmdb : updateProfileVotesAndRank id now db
          = (some (mergeProfile z
              { votes := some (getVotesForProfile id db : Int),
                rank := some (calculateRank (getVotesForProfile id db)) } now),
             { db with profiles := l1 ++ (mergeProfile z
              { votes := some (getVotesForProfile id db : Int),
                rank := some (calculateRank (getVotesForProfile id db)) } now) :: l2 }) := by
        simp only [updateProfileVotesAndRank, updateProfile]
        rw [hu]
      refine ⟨_, _, hmdb, rfl, rfl, ?_, rfl, rfl, rfl⟩
      show (l1 ++ (mergeProfile z
          { votes := some (getVotesForProfile id db : Int),
            rank := some (calculateRank (getVotesForProfile id db)) } now) :: l2).find?
          (fun p => p.id == id) = _
      exact find?_middle _ l1 _ l2 hl1 hz
  · intro hnone
    have hall : ∀ x ∈ db.profiles, (x.id == id) = false := by
      intro x hx
      have := List.find?_eq_none.mp hnone x hx
      simpa using this
    rw [updateProfileVotesAndRank, updateProfile,
      updateFirst_of_forall_not _ _ _ hall]

/-- A concrete profile for witnesses. -/
def exProfile : Profile :=
  { id := "p1", name := "An", votes := 0, rank := .bronze,
    updatedAt := "2026-01-01T00:00:00.000Z" }

/-- A second concrete profile for witnesses. -/
def exProfile2 : Profile :=
  { id := "p2", name := "Binh", votes := 5, rank := .bronze,
    updatedAt := "2026-01-01T00:00:00.000Z" }

/-- A concrete database: two profiles and three votes, two of them for
profile p1. -/
def exDB : DB :=
  { profiles := [exProfile, exProfile2],
    posts := [],
    messages := [],
    votes := [{ voterId := "u1", profileId := "p1", createdAt := "2026-10-11T01:00:00.000Z" },
              { voterId := "u2", profileId := "p1", createdAt := "2026-10-11T02:00:00.000Z" },
              { voterId := "u1", profileId := "p2", createdAt := "2026-10-10T03:00:00.000Z" }] }

/-- Witness for C1: both branches evaluated at concrete inputs. -/
theorem updateProfileVotesAndRank_spec_witness :
    (∃ r db2, updateProfileVotesAndRank "p1" "2026-10-11T12:00:00.000Z" exDB = (some r, db2)
      ∧ r.votes = (getVotesForProfile "p1" exDB : Int)
      ∧ r.rank = calculateRank (getVotesForProfile "p1" exDB)
      ∧ getProfileById "p1" db2 = some r
      ∧ db2.votes = exDB.votes
      ∧ r.votes = (getVotesForProfile "p1" db2 : Int)
      ∧ r.rank = calculateRank (getVotesForProfile "p1" db2))
    ∧ updateProfileVotesAndRank "zz" "2026-10-11T12:00:00.000Z" exDB = (none, exDB) :=
  ⟨(updateProfileVotesAndRank_spec "p1" "2026-10-11T12:00:00.000Z" exDB).1
      ⟨exProfile, by decide⟩,
   (updateProfileVotesAndRank_spec "zz" "2026-10-11T12:00:00.000Z" exDB).2 (by decide)⟩

/-- C8: `updateProfile` returns none and changes nothing when no profile
has the id; otherwise it replaces exactly the first matching profile with
the shallow merge of the update over it — each field named in the update
overwritten, every other field preserved — with `updatedAt` stamped to the
supplied current time even when the update itself carries an `updatedAt`,
returns that merged entity, and leaves every other profile in place. -/
theorem updateProfile_spec (id now : String) (u : ProfileUpdate) (db : DB) :
    ((∀ p ∈ db.profiles, (p.id == id) = false) → updateProfile id u now db = (none, db))
    ∧ (∀ l1 q l2, db.profiles = l1 ++ q :: l2 → (∀ y ∈ l1, (y.id == id) = false) →
        (q.id == id) = true →
        updateProfile id u now db
          = (some (mergeProfile q u now),
             { db with profiles := l1 ++ (mergeProfile q u now) :: l2 })
        ∧ (mergeProfile q u now).id = u.id.getD q.id
        ∧ (mergeProfile q u now).name = u.name.getD q.name
        ∧ (mergeProfile q u now).votes = u.votes.getD q.votes
        ∧ (mergeProfile q u now).rank = u.rank.getD q.rank
        ∧ (mergeProfile q u now).updatedAt = now) := by
  constructor
  · intro hall
    simp only [updateProfile]
    rw [updateFirst_of_forall_not _ _ _ hall]
  · intro l1 q l2 he hl1 hq
    refine ⟨?_, rfl, rfl, rfl, rfl, rfl⟩
    simp only [updateProfile]
    rw [he, updateFirst_append _ _ l1 q l2 hl1 hq]

/-- A concrete partial update that also tries to set `updatedAt`. -/
def exUpdate : ProfileUpdate :=
  { name := some "Chi", updatedAt := some "1999-01-01T00:00:00.000Z" }

/-- Witness for C8: both branches evaluated at concrete inputs; the merge
keeps `id` and `votes`, overwrites `name`, and stamps `updatedAt` with the
current time rather than the supplied one. -/
theorem updateProfile_spec_witness :
    updateProfile "zz" exUpdate "2026-10-11T12:00:00.000Z" exDB = (none, exDB)
    ∧ (updateProfile "p2" exUpdate "2026-10-11T12:00:00.000Z" exDB
        = (some (mergeProfile exProfile2 exUpdate "2026-10-11T12:00:00.000Z"),
           { exDB with profiles :=
              [exProfile] ++ (mergeProfile exProfile2 exUpdate "2026-10-11T12:00:00.000Z") :: [] })
        ∧ (mergeProfile exProfile2 exUpdate "2026-10-11T12:00:00.000Z").id
            = exUpdate.id.getD exProfile2.id
        ∧ (mergeProfile exProfile2 exUpdate "2026-10-11T12:00:00.000Z").name
            = exUpdate.name.getD exProfile2.name
        ∧ (mergeProfile exProfile2 exUpdate "2026-10-11T12:00:00.000Z").votes
            = exUpdate.votes.getD exProfile2.votes
        ∧ (mergeProfile exProfile2 exUpdate "2026-10-11T12:00:00.000Z").rank
            = exUpdate.rank.getD exProfile2.rank
        ∧ (mergeProfile exProfile2 exUpdate "2026-10-11T12:00:00.000Z").updatedAt
            = "2026-10-11T12:00:00.000Z") :=
  ⟨(updateProfile_spec "zz" "2026-10-11T12:00:00.000Z" exUpdate exDB).1 (by decide),
   (updateProfile_spec "p2" "2026-10-11T12:00:00.000Z" exUpdate exDB).2
     [exProfile] exProfile2 [] rfl (by decide) (by decide)⟩

/-- C9: `deleteProfile` and `deletePost` report whether some entity
matched the id, and the stored collection afterwards is exactly the
original with the matching entities removed (the other collections are
untouched); deleting a nonexistent id returns false and leaves the stored
collection unchanged in length and content. -/
theorem delete_spec (id : String) (db : DB) :
    ((deleteProfile id db).1 = true ↔ ∃ p ∈ db.profiles, p.id = id)
    ∧ ((deleteProfile id db).2).profiles = db.profiles.filter (fun p => !(p.id == id))
    ∧ ((deleteProfile id db).2).posts = db.posts
    ∧ ((deleteProfile id db).2).votes = db.votes
    ∧ ((deleteProfile id db).2).messages = db.messages
    ∧ ((∀ p ∈ db.profiles, p.id ≠ id) → deleteProfile id db = (false, db))
    ∧ ((deletePost id db).1 = true ↔ ∃ p ∈ db.posts, p.id = id)
    ∧ ((deletePost id db).2).posts = db.posts.filter (fun p => !(p.id == id))
    ∧ ((deletePost id db).2).profiles = db.profiles
    ∧ ((∀ p ∈ db.posts, p.id ≠ id) → deletePost id db = (false, db)) := by
  have keyP : ∀ (l : List Profile),
      ((l.filter (fun p => !(p.id == id))).length == l.length) = true
        ↔ ∀ p ∈ l, p.id ≠ id := by
    intro l
    rw [beq_iff_eq, List.filter_length_eq_length]
    constructor
    · intro h p hp
      have := h p hp
      simpa using this
    · intro h p hp
      simpa using h p hp
  have keyQ : ∀ (l : List Post),
      ((l.filter (fun p => !(p.id == id))).length == l.length) = true
        ↔ ∀ p ∈ l, p.id ≠ id := by
    intro l
    rw [beq_iff_eq, List.filter_length_eq_length]
    constructor
    · intro h p hp
      have := h p hp
      simpa using this
    · intro h p hp
      simpa using h p hp
  constructor
  · simp only [deleteProfile]
    by_cases h : ∀ p ∈ db.profiles, p.id ≠ id
    · rw [if_pos ((keyP db.profiles).mpr h)]
      simpa using h
    · rw [if_neg (fun hc => h ((keyP db.profiles).mp hc))]
      simpa using h
  refine ⟨?_, ?_, ?_, ?_, ?_, ?_, ?_, ?_, ?_⟩
  · simp only [deleteProfile]
    by_cases h : ∀ p ∈ db.profiles, p.id ≠ id
    · rw [if_pos ((keyP db.profiles).mpr h)]
      exact ((List.filter_eq_self).mpr (fun p hp => by simpa using h p hp)).symm
    · rw [if_neg (fun hc => h ((keyP db.profiles).mp hc))]
  · simp only [deleteProfile]
    by_cases h : ∀ p ∈ db.profiles, p.id ≠ id
    · rw [if_pos ((keyP db.profiles).mpr h)]
    · rw [if_neg (fun hc => h ((keyP db.profiles).mp hc))]
  · simp only [deleteProfile]
    by_cases h : ∀ p ∈ db.profiles, p.id ≠ id
    · rw [if_pos ((keyP db.profiles).mpr h)]
    · rw [if_neg (fun hc => h ((keyP db.profiles).mp hc))]
  · simp only [deleteProfile]
    by_cases h : ∀ p ∈ db.profiles, p.id ≠ id
    · rw [if_pos ((keyP db.profiles).mpr h)]
    · rw [if_neg (fun hc => h ((keyP db.profiles).mp hc))]
  · intro h
    simp only [deleteProfile]
    rw [if_pos ((keyP db.profiles).mpr h)]
  · simp only [deletePost]
    by_cases h : ∀ p ∈ db.posts, p.id ≠ id
    · rw [if_pos ((keyQ db.posts).mpr h)]
      simpa using h
    · rw [if_neg (fun hc => h ((keyQ db.posts).mp hc))]
      simpa using h
  · simp only [deletePost]
    by_cases h : ∀ p ∈ db.posts, p.id ≠ id
    · rw [if_pos ((keyQ db.posts).mpr h)]
      exact ((List.filter_eq_self).mpr (fun p hp => by simpa using h p hp)).symm
    · rw [if_neg (fun hc => h ((keyQ db.posts).mp hc))]
  · simp only [deletePost]
    by_cases h : ∀ p ∈ db.posts, p.id ≠ id
    · rw [if_pos ((keyQ db.posts).mpr h)]
    · rw [if_neg (fun hc => h ((keyQ db.posts).mp hc))]
  · intro h
    simp only [deletePost]
    rw [if_pos ((keyQ db.posts).mpr h)]

/-- Witness for C9: deleting a nonexistent profile id from the concrete
database changes nothing and reports false. -/
theorem delete_spec_witness :
    deleteProfile "zz" exDB = (false, exDB)
    ∧ deletePost "zz" exDB = (false, exDB) :=
  ⟨(delete_spec "zz" exDB).2.2.2.2.2.1 (by decide),
   (delete_spec "zz" exDB).2.2.2.2.2.2.2.2.2 (by decide)⟩

/-- C10: `likePost` returns none and changes nothing when no post has the
id; otherwise it bumps exactly the first matching post's like count by
one, treating an absent `likes` field as zero (a post without likes ends
at one), keeps every other field of that post, leaves every other post in
place, and returns the updated post. -/
theorem likePost_spec (id : String) (db : DB) :
    ((∀ p ∈ db.posts, (p.id == id) = false) → likePost id db = (none, db))
    ∧ (∀ l1 q l2, db.posts = l1 ++ q :: l2 → (∀ y ∈ l1, (y.id == id) = false) →
        (q.id == id) = true →
        ∃ r, likePost id db = (some r, { db with posts := l1 ++ r :: l2 })
          ∧ r.likes = some (q.likes.getD 0 + 1)
          ∧ (q.likes = none → r.likes = some 1)
          ∧ r.id = q.id ∧ r.title = q.title ∧ r.createdAt = q.createdAt
          ∧ r.isPinned = q.isPinned) := by
  constructor
  · intro hall
    simp only [likePost]
    rw [updateFirst_of_forall_not _ _ _ hall]
  · intro l1 q l2 he hl1 hq
    refine ⟨{ q with likes := some (q.likes.getD 0 + 1) }, ?_, rfl, ?_, rfl, rfl, rfl, rfl⟩
    · simp only [likePost]
      rw [he, updateFirst_append _ _ l1 q l2 hl1 hq]
    · intro h0
      simp [h0]

/-- A post without a `likes` field, for the C10 witness. -/
def exPostNoLikes : Post :=
  { id := "post1", title := "hello", createdAt := 100, isPinned := false, likes := none }

/-- A database holding a single post without likes. -/
def exDBPost : DB :=
  { profiles := [], posts := [exPostNoLikes], messages := [], votes := [] }

/-- Witness for C10: both branches at concrete inputs; the like count of a
post without likes becomes one. -/
theorem likePost_spec_witness :
    likePost "zz" exDBPost = (none, exDBPost)
    ∧ ∃ r, likePost "post1" exDBPost = (some r, { exDBPost with posts := [] ++ r :: [] })
        ∧ r.likes = some (exPostNoLikes.likes.getD 0 + 1)
        ∧ (exPostNoLikes.likes = none → r.likes = some 1)
        ∧ r.id = exPostNoLikes.id ∧ r.title = exPostNoLikes.title
        ∧ r.createdAt = exPostNoLikes.createdAt
        ∧ r.isPinned = exPostNoLikes.isPinned :=
  ⟨(likePost_spec "zz" exDBPost).1 (by decide),
   (likePost_spec "post1" exDBPost).2 [] exPostNoLikes [] rfl (by decide) (by decide)⟩

instance : IsTotal Post (fun a b => postLe a b = true) := by
  constructor
  intro a b
  cases ha : a.isPinned <;> cases hb : b.isPinned <;>
    simp [postLe, ha, hb] <;> omega

instance : IsTrans Post (fun a b => postLe a b = true) := by
  constructor
  intro a b c hab hbc
  cases ha : a.isPinned <;> cases hb : b.isPinned <;> cases hc : c.isPinned <;>
    simp [postLe, ha, hb, hc] at hab hbc ⊢ <;> omega

/-- Written from the claim (not from the source), for comparison with
`getAllPosts`: pinned posts first in their stored relative order, then the
unpinned posts by `createdAt` descending. -/
def specClaimPostOrder (posts : List Post) : List Post :=
  posts.filter (fun p => p.isPinned)
    ++ (posts.filter (fun p => !p.isPinned)).insertionSort
        (fun a b => b.createdAt ≤ a.createdAt)

/-- An early pinned post. -/
def pinnedEarly : Post :=
  { id := "P1", title := "old sticky", createdAt := 0, isPinned := true, likes := none }

/-- A later pinned post, stored after the early one. -/
def pinnedLate : Post :=
  { id := "P2", title := "new sticky", createdAt := 5, isPinned := true, likes := none }

/-- A database storing the two pinned posts in ascending date order. -/
def exDBPinned : DB :=
  { profiles := [], posts := [pinnedEarly, pinnedLate], messages := [], votes := [] }

/-- C5 counterexample: with two pinned posts stored in ascending date
order, `getAllPosts` sorts them by `createdAt` descending, because the
comparator falls through to the date comparison when both posts are
pinned, whereas the claim demands that pinned posts keep their stored
relative order. -/
theorem getAllPosts_pinned_order_cex :
    getAllPosts exDBPinned = [pinnedLate, pinnedEarly]
    ∧ specClaimPostOrder exDBPinned.posts = [pinnedEarly, pinnedLate]
    ∧ pinnedEarly ≠ pinnedLate :=
  ⟨by decide, by decide, by decide⟩

/-- Post A of the ordering example: unpinned, middle timestamp. -/
def postA : Post :=
  { id := "A", title := "", createdAt := 1, isPinned := false, likes := none }

/-- Post B of the ordering example: pinned, earliest timestamp. -/
def postB : Post :=
  { id := "B", title := "", createdAt := 0, isPinned := true, likes := none }

/-- Post C of the ordering example: unpinned, latest timestamp. -/
def postC : Post :=
  { id := "C", title := "", createdAt := 2, isPinned := false, likes := none }

/-- The ordering-example database storing [A, B, C]. -/
def exDBABC : DB :=
  { profiles := [], posts := [postA, postB, postC], messages := [], votes := [] }

/-- C5 (amended): `getAllPosts` returns a permutation of the stored posts
in which every pinned post precedes every unpinned one and, within the
pinned group exactly as within the unpinned group, posts appear in
descending `createdAt` order (the comparator falls through to the date
comparison also when both posts are pinned, so pinned posts do not keep
their stored relative order); posts whose comparator keys tie keep the
stored order, in that every already-ordered sublist of the stored posts
survives in the result (stability); on posts A(unpinned, t1),
B(pinned, t0 < t1), C(unpinned, t2 > t1) stored as [A, B, C] it returns
[B, C, A]. -/
theorem getAllPosts_spec (db : DB) :
    List.Perm (getAllPosts db) db.posts
    ∧ (∀ l1 a l2 b l3, getAllPosts db = l1 ++ a :: (l2 ++ b :: l3) →
        (b.isPinned = true → a.isPinned = true)
        ∧ (a.isPinned = b.isPinned → b.createdAt ≤ a.createdAt))
    ∧ (∀ c : List Post, c.Pairwise (fun a b => postLe a b = true) → List.Sublist c db.posts →
        List.Sublist c (getAllPosts db))
    ∧ getAllPosts exDBABC = [postB, postC, postA] := by
  refine ⟨List.perm_insertionSort _ _, ?_, ?_, by decide⟩
  · intro l1 a l2 b l3 hsplit
    have hsorted : (getAllPosts db).Pairwise (fun a b => postLe a b = true) :=
      List.sorted_insertionSort _ _
    have hsub : List.Sublist [a, b] (getAllPosts db) := by
      rw [hsplit]
      refine List.sublist_append_of_sublist_right ?_
      exact List.Sublist.cons₂ a
        (List.sublist_append_of_sublist_right (List.Sublist.cons₂ b (List.nil_sublist l3)))
    have hpair : List.Pairwise (fun x y => postLe x y = true) [a, b] :=
      List.Pairwise.sublist hsub hsorted
    have hab : postLe a b = true :=
      (List.pairwise_cons.mp hpair).1 b (List.mem_cons_self b [])
    constructor
    · intro hbp
      cases ha : a.isPinned
      · rw [postLe, ha, hbp] at hab
        simp at hab
      · rfl
    · intro hpin
      cases ha : a.isPinned <;> rw [ha] at hpin <;>
        simp [postLe, ha, ← hpin] at hab <;> exact hab
  · intro c hc hsubc
    exact List.sublist_insertionSort hc hsubc

/-- Witness for C5 (amended): the ordering facts extracted at the
two-pinned-posts database. -/
theorem getAllPosts_spec_witness :
    ((pinnedEarly.isPinned = true → pinnedLate.isPinned = true)
      ∧ (pinnedLate.isPinned = pinnedEarly.isPinned →
          pinnedEarly.createdAt ≤ pinnedLate.createdAt))
    ∧ List.Sublist [pinnedLate] (getAllPosts exDBPinned) :=
  ⟨(getAllPosts_spec exDBPinned).2.1 [] pinnedLate [] pinnedEarly [] (by decide),
   (getAllPosts_spec exDBPinned).2.2.1 [pinnedLate]
     (List.pairwise_singleton _ _)
     (List.Sublist.cons pinnedEarly (List.Sublist.refl [pinnedLate]))⟩

theorem lastN_of_le {α : Type} {n : Nat} {l : List α} (h : l.length ≤ n) :
    lastN n l = l := by
  simp [lastN, Nat.sub_eq_zero_of_le h]

theorem length_lastN {α : Type} (n : Nat) (l : List α) :
    (lastN n l).length = min n l.length := by
  simp only [lastN, List.length_drop]
  omega

theorem addChatMessage_messages (m : ChatMessage) (db : DB) :
    ((addChatMessage m db).2).messages = lastN 500 (db.messages ++ [m]) := by
  simp only [addChatMessage]
  by_cases h : (db.messages ++ [m]).length > 500
  · rw [if_pos h]
  · rw [if_neg h]
    exact (lastN_of_le (Nat.le_of_not_lt h)).symm

theorem lastN_lastN_append {α : Type} (n : Nat) (l B : List α) :
    lastN n (lastN n l ++ B) = lastN n (l ++ B) := by
  by_cases h : l.length ≤ n
  · rw [lastN_of_le h]
  · simp only [lastN, List.length_append, List.length_drop]
    have e1 : l.length - (l.length - n) + B.length - n = B.length := by
      omega
    rw [e1]
    by_cases hB : B.length ≤ n
    · rw [List.drop_append_of_le_length (by rw [List.length_drop]; omega),
        List.drop_append_of_le_length (by omega : l.length + B.length - n ≤ l.length),
        List.drop_drop]
      congr 2
      omega
    · have e3 : l.length + B.length - n = l.length + (B.length - n) := by
        omega
      nth_rewrite 1 [show B.length = (List.drop (l.length - n) l).length + (B.length - n) by
        rw [List.length_drop]; omega]
      rw [List.drop_append, e3, List.drop_append]

/-- Repeated insertion through `addChatMessage`, for the 501-message
scenario of the claim. -/
def addAllChat (ms : List ChatMessage) (db : DB) : DB :=
  ms.foldl (fun d m => (addChatMessage m d).2) db

theorem addAllChat_messages (ms : List ChatMessage) (db : DB)
    (h : db.messages.length ≤ 500) :
    (addAllChat ms db).messages = lastN 500 (db.messages ++ ms) := by
  induction ms generalizing db with
  | nil =>
    simp only [addAllChat, List.foldl_nil, List.append_nil]
    exact (lastN_of_le h).symm
  | cons m ms ih =>
    have h2 : ((addChatMessage m db).2).messages.length ≤ 500 := by
      rw [addChatMessage_messages, length_lastN]
      omega
    have step : addAllChat (m :: ms) db = addAllChat ms (addChatMessage m db).2 := rfl
    rw [step, ih _ h2, addChatMessage_messages, lastN_lastN_append, List.append_assoc,
      List.singleton_append]

/-- The i-th message of the 501-message scenario. -/
def mkMsg (i : Nat) : ChatMessage :=
  { id := "m", text := "hi", createdAt := (i : Int) }

/-- An empty database. -/
def emptyDB : DB :=
  { profiles := [], posts := [], messages := [], votes := [] }

theorem scenario_messages :
    (addAllChat ((List.range 501).map mkMsg) emptyDB).messages
      = ((List.range 501).map mkMsg).drop 1 := by
  rw [addAllChat_messages _ _ (by simp [emptyDB])]
  show lastN 500 ([] ++ (List.range 501).map mkMsg) = _
  rw [List.nil_append, lastN]
  simp

theorem mkMsg_zero_not_mem :
    mkMsg 0 ∉ (((List.range 501).map mkMsg).drop 1) := by
  intro hmem
  rw [show (501 : Nat) = 1 + 500 from rfl, List.range_add] at hmem
  simp only [List.map_append, show List.range 1 = [0] from rfl, List.map_cons, List.map_nil,
    List.singleton_append, List.drop_succ_cons, List.drop_zero, List.map_map] at hmem
  rcases List.mem_map.mp hmem with ⟨k, _, hEq⟩
  have hcast : ((1 + k : Nat) : Int) = ((0 : Nat) : Int) :=
    congrArg ChatMessage.createdAt hEq
  have : (1 + k : Nat) = 0 := by
    exact_mod_cast hcast
  omega

/-- C6: `addChatMessage` appends the new message at the end and trims the
stored collection to its most recent 500 entries: the stored list is
always the last-500 suffix of the old list with the message appended, so
its length is capped at 500, the surviving messages keep their relative
order with only the oldest evicted, and the new message is stored last;
inserting 501 sequential messages into an empty database leaves exactly
the newest 500 in insertion order, with the first message absent. -/
theorem addChatMessage_spec :
    (∀ (m : ChatMessage) (db : DB),
        ((addChatMessage m db).2).messages = lastN 500 (db.messages ++ [m]))
    ∧ (∀ (m : ChatMessage) (db : DB),
        List.IsSuffix ((addChatMessage m db).2).messages (db.messages ++ [m]))
    ∧ (∀ (m : ChatMessage) (db : DB),
        ((addChatMessage m db).2).messages.length = min (db.messages.length + 1) 500)
    ∧ (∀ (m : ChatMessage) (db : DB),
        ((addChatMessage m db).2).messages.getLast? = some m)
    ∧ (addAllChat ((List.range 501).map mkMsg) emptyDB).messages
        = ((List.range 501).map mkMsg).drop 1
    ∧ ((addAllChat ((List.range 501).map mkMsg) emptyDB).messages).length = 500
    ∧ mkMsg 0 ∉ (addAllChat ((List.range 501).map mkMsg) emptyDB).messages := by
  refine ⟨addChatMessage_messages, ?_, ?_, ?_, scenario_messages, ?_, ?_⟩
  · intro m db
    rw [addChatMessage_messages]
    exact List.drop_suffix _ _
  · intro m db
    rw [addChatMessage_messages, length_lastN, List.length_append,
      List.length_cons, List.length_nil]
    omega
  · intro m db
    rw [addChatMessage_messages, lastN]
    have hk : (db.messages ++ [m]).length - 500 ≤ db.messages.length := by
      simp only [List.length_append, List.length_cons, List.length_nil]
      omega
    rw [List.drop_append_of_le_length hk]
    exact List.getLast?_concat _
  · rw [scenario_messages]
    simp
  · rw [scenario_messages]
    exact mkMsg_zero_not_mem

/-- C7: `hasVotedToday` is true exactly when some stored vote matches the
voter id, the profile id, and has a `createdAt` string starting with the
current UTC date string; in particular any matching vote whose `createdAt`
is the current date followed by an arbitrary time suffix makes it true,
while at the concrete database the pair whose only vote is dated the
previous day yields false. -/
theorem hasVotedToday_spec (visitorId profileId today : String) (db : DB) :
    (hasVotedToday visitorId profileId today db = true
      ↔ ∃ v, v ∈ db.votes ∧ v.voterId = visitorId ∧ v.profileId = profileId
          ∧ strStartsWith v.createdAt today = true)
    ∧ (∀ v, v ∈ db.votes → v.voterId = visitorId → v.profileId = profileId →
        (∃ timeSuffix, v.createdAt = today ++ timeSuffix) →
        hasVotedToday visitorId profileId today db = true)
    ∧ hasVotedToday "u1" "p1" "2026-10-11" exDB = true
    ∧ hasVotedToday "u1" "p2" "2026-10-11" exDB = false := by
  have hiff : hasVotedToday visitorId profileId today db = true
      ↔ ∃ v, v ∈ db.votes ∧ v.voterId = visitorId ∧ v.profileId = profileId
          ∧ strStartsWith v.createdAt today = true := by
    simp only [hasVotedToday, getVotes, List.any_eq_true, Bool.and_eq_true, beq_iff_eq]
    constructor
    · rintro ⟨v, hv, ⟨h1, h2⟩, h3⟩
      exact ⟨v, hv, h1, h2, h3⟩
    · rintro ⟨v, hv, h1, h2, h3⟩
      exact ⟨v, hv, ⟨h1, h2⟩, h3⟩
  refine ⟨hiff, ?_, by decide, by decide⟩
  rintro v hv h1 h2 ⟨t, ht⟩
  have hstart : strStartsWith v.createdAt today = true := by
    rw [strStartsWith, ht, String.data_append]
    exact List.isPrefixOf_iff_prefix.mpr (List.prefix_append _ _)
  exact hiff.mpr ⟨v, hv, h1, h2, hstart⟩

/-- Witness for C7: a vote dated today at one in the morning makes the
check true for its voter and profile. -/
theorem hasVotedToday_spec_witness :
    hasVotedToday "u1" "p1" "2026-10-11" exDB = true :=
  (hasVotedToday_spec "u1" "p1" "2026-10-11" exDB).2.1
    { voterId := "u1", profileId := "p1", createdAt := "2026-10-11T01:00:00.000Z" }
    (by decide) rfl rfl ⟨"T01:00:00.000Z", by decide⟩

end NuoiDev
